import Mathlib

/-!
Verification of the batch acquisition and adaptive-ingestion pipeline in
src/data.py (IronWarden/Backtester).

The Python source is shallowly embedded: pure fragments become Lean
functions; the stateful parts (the retry loops, the schema-evolving
ingestion against DuckDB, the progress-file driver loop) become explicit
state-passing functions driven by finite scripts of externally observed
outcomes (provider responses, raised exceptions, ALTER TABLE failures).
Wall-clock time is modelled as an explicit counter advanced by the
scripted duration of each provider call and by each sleep.
-/

/- ===================== Batcher (src/data.py lines 443 to 444 and 663 to 667) ===================== -/

/-- Number of elements of the Python expression range(start, stop, step) for
step different from 0, following CPython semantics for both signs of step. -/
def pyRangeLen (start stop step : Int) : Nat :=
  if 0 < step then ((stop - start + step - 1) / step).toNat
  else ((start - stop + (-step) - 1) / (-step)).toNat

/-- Python range(start, stop, step): raises ValueError when step is 0,
otherwise yields the arithmetic progression. -/
def pyRange (start stop step : Int) : Except String (List Int) :=
  if step == 0 then .error "ValueError: range arg 3 must not be zero"
  else .ok ((List.range (pyRangeLen start stop step)).map (fun i : Nat => start + (i : Int) * step))

/-- The batch partition comprehension of src/data.py, written identically at
line 444 (chunks, in download_all_stock_data) and lines 664 to 667 (batches,
in the main driver): for i in range(0, len(tickers), chunk_size) take the
slice tickers[i : i + chunk_size]. -/
def list_chunks (tickers : List α) (chunk_size : Int) : Except String (List (List α)) :=
  match pyRange 0 tickers.length chunk_size with
  | .error e => .error e
  | .ok idxs => .ok (idxs.map (fun i => (tickers.drop i.toNat).take chunk_size.toNat))

/-- Reference recursion for the partition with positive size k + 1, used only
inside proofs: first k + 1 elements, then recurse on the rest. -/
def chunksOfPos (k : Nat) : List α → List (List α)
  | [] => []
  | x :: xs => ((x :: xs).take (k + 1)) :: chunksOfPos k (xs.drop k)
termination_by l => l.length
decreasing_by simp; omega

/- ===================== String classification helpers ===================== -/

/-- Boolean test that the first character list is a prefix of the second. -/
def prefixOfChars : List Char → List Char → Bool
  | [], _ => true
  | _ :: _, [] => false
  | a :: as, b :: bs => a == b && prefixOfChars as bs

/-- Boolean test that pat occurs as a contiguous sublist. -/
def hasSubChars (pat : List Char) : List Char → Bool
  | [] => pat.isEmpty
  | c :: rest => prefixOfChars pat (c :: rest) || hasSubChars pat rest

/-- Python substring containment, the expression pat in s. -/
def strContains (s pat : String) : Bool := hasSubChars pat.data s.data

/-- Python str.lower restricted to character-wise lowering. -/
def strLower (s : String) : String := String.mk (s.data.map Char.toLower)

/- ===================== Rate-limit-aware fetcher, symbol path (lines 200 to 251) ===================== -/

/-- Maximum time to keep retrying, src/data.py line 201. -/
def MAX_RETRY_SECONDS : Nat := 300

/-- Delay between retries for rate limiting, src/data.py line 202. -/
def RETRY_DELAY_SECONDS : Nat := 60

/-- Shape of a value a yfinance attribute access can produce: the Python
value None, a DataFrame or Series with a row count, or a dict with an entry
count. -/
inductive PyData
  | pynone
  | frame (rows : Nat)
  | dict (entries : Nat)
deriving DecidableEq

/-- One scripted outcome of the getattr call at line 224: either it produces
a value or it raises an exception carrying a message. -/
inductive AttemptOutcome
  | value (d : PyData)
  | exc (msg : String)
deriving DecidableEq

/-- Rate-limit classification of line 236 to 237: lower the message, then
test for the substrings 429 and rate limit. -/
def is_rate_limit_error (msg : String) : Bool :=
  strContains (strLower msg) "429" || strContains (strLower msg) "rate limit"

/-- How one call of the function at lines 205 to 251 can end: returning the
fetched data (lines 230 and 233), returning None after a non-rate-limit
error (line 247), returning None because the time budget ran out (line 251),
or, as a model artifact only, exhausting the finite outcome script. -/
inductive FetchResult
  | fetched (d : PyData)
  | failedOther
  | timedOut
  | scriptEnded
deriving DecidableEq

/-- Observable trace of one call: the result, how many attempts ran, the
sleeps performed in order, and the final clock value. -/
structure FetchTrace where
  result : FetchResult
  attempts : Nat
  sleeps : List Nat
  elapsed : Nat
deriving DecidableEq

/-- The while loop of lines 221 to 247. The clock is checked against
MAX_RETRY_SECONDS at the top of each iteration; each scripted attempt
advances the clock by its duration; a rate-limit-classified exception sleeps
RETRY_DELAY_SECONDS and continues; any other exception returns immediately;
any returned value is passed through unchanged. -/
def fetchLoop (script : List (AttemptOutcome × Nat)) (clock attempts : Nat) : FetchTrace :=
  if clock < MAX_RETRY_SECONDS then
    match script with
    | [] => ⟨.scriptEnded, attempts, [], clock⟩
    | (outcome, dur) :: rest =>
      match outcome with
      | .value d => ⟨.fetched d, attempts + 1, [], clock + dur⟩
      | .exc msg =>
        if is_rate_limit_error msg then
          let t := fetchLoop rest (clock + dur + RETRY_DELAY_SECONDS) (attempts + 1)
          ⟨t.result, t.attempts, RETRY_DELAY_SECONDS :: t.sleeps, t.elapsed⟩
        else
          ⟨.failedOther, attempts + 1, [], clock + dur⟩
  else ⟨.timedOut, attempts, [], clock⟩

/-- Entry point modelling _fetch_data_with_retry: start time is recorded at
line 219, so the first loop check sees an elapsed time of zero. -/
def fetch_data_with_retry (script : List (AttemptOutcome × Nat)) : FetchTrace :=
  fetchLoop script 0 0

/-- Emptiness notion used at lines 225 to 229: None, a DataFrame or Series
with no rows, or a dict with no entries. -/
def isEmptyPayload : PyData → Bool
  | .pynone => true
  | .frame n => n == 0
  | .dict n => n == 0

/-- Truthiness rule for one scripted attempt being a rate-limited exception. -/
def isRateLimitAttempt : AttemptOutcome × Nat → Bool
  | (.exc msg, _) => is_rate_limit_error msg
  | _ => false

/-- Guard at lines 364 to 366 of the datasets loop: the fetched data is
processed only when it is not None and not an empty DataFrame or Series;
when the fetch returned None (failure or timeout) nothing is stored. -/
def dataset_processed : FetchResult → Bool
  | .fetched .pynone => false
  | .fetched (.frame n) => n != 0
  | .fetched (.dict _) => true
  | _ => false

/- ===================== Rate-limit-aware fetcher, batch path (lines 446 to 477) ===================== -/

/-- Rate-limit classification of line 469: the substring 429 is tested on
the raw message, rate limit on the lowered message. -/
def is_rate_limit_error_batch (msg : String) : Bool :=
  strContains msg "429" || strContains (strLower msg) "rate limit"

/-- One scripted outcome of the yf.download call at line 451: either a
download completes (its payload possibly empty) or an exception is raised. -/
inductive BatchOutcome
  | downloaded (empty : Bool)
  | exc (msg : String)
deriving DecidableEq

/-- How the per-chunk while loop at lines 449 to 472 can end: success (with
the flag recording whether a parquet chunk file was written, line 458 to
464), giving up after max_retries failed attempts (the silent line 474 to
475), or, as a model artifact only, exhausting the outcome script. -/
inductive BatchResult
  | succeeded (wrote : Bool)
  | gaveUp
  | scriptEnded
deriving DecidableEq

/-- Observable trace of one chunk download: result, attempts, sleeps. -/
structure BatchTrace where
  result : BatchResult
  attempts : Nat
  sleeps : List Nat
deriving DecidableEq

/-- The while loop of lines 449 to 472: while retries is less than
max_retries and no success, attempt the download; every exception increments
retries and sleeps, retry_delay for rate-limit messages and delay otherwise. -/
def batchRetryLoop (max_retries retry_delay delay : Nat) (script : List BatchOutcome)
    (retries : Nat) : BatchTrace :=
  if retries < max_retries then
    match script with
    | [] => ⟨.scriptEnded, 0, []⟩
    | .downloaded e :: _ => ⟨.succeeded !e, 1, []⟩
    | .exc msg :: rest =>
      let slept := if is_rate_limit_error_batch msg then retry_delay else delay
      let t := batchRetryLoop max_retries retry_delay delay rest (retries + 1)
      ⟨t.result, t.attempts + 1, slept :: t.sleeps⟩
  else ⟨.gaveUp, 0, []⟩

/-- One chunk of download_all_stock_data with the default parameters
max_retries 5, retry_delay_seconds 600, delay_seconds 10 (lines 433 to 441). -/
def download_chunk_with_retries (script : List BatchOutcome) : BatchTrace :=
  batchRetryLoop 5 600 10 script 0

/- ===================== Shape normalizer, periodic statements (lines 374 to 408) ===================== -/

/-- Wide financial-statement response: the index holds the metric labels
(one per line item) and each column pairs a period label with the cells of
that column, aligned with the metrics. -/
structure StatementFrame where
  metrics : List String
  columns : List (String × List String)
deriving DecidableEq

/-- One row of the long format produced by the melt at lines 398 to 403:
entity key, metric, the former column label now in the Date column, value. -/
structure LongRow where
  ticker : String
  metric : String
  date : String
  value : String
deriving DecidableEq

/-- The melt of lines 398 to 403 with id_vars Ticker and Metric: one output
row per value column per original row, iterating the value columns in order. -/
def melt_statement (ticker : String) (sf : StatementFrame) : List LongRow :=
  sf.columns.flatMap (fun pc => (sf.metrics.zip pc.2).map (fun mv => ⟨ticker, mv.1, pc.1, mv.2⟩))

/-- Lines 404 to 408: pd.to_datetime with errors coerce turns each Date
entry into a timestamp or a null, and dropna on Date removes the null rows.
The timestamp parser of pandas is abstracted as the parameter parse_ts. -/
def normalize_statement (parse_ts : String → Option Nat) (ticker : String) (sf : StatementFrame) :
    List LongRow :=
  (melt_statement ticker sf).filter (fun r => (parse_ts r.date).isSome)

/- ===================== Schema-evolving ingestor (lines 284 to 339 and 412 to 415) ===================== -/

/-- Pandas column dtype as far as the type inference of lines 302 to 309
distinguishes it. -/
inductive Dtype
  | int64
  | float64
  | boolCol
  | datetime64
  | objectCol
deriving DecidableEq

/-- DuckDB type inference of lines 300 to 310: default VARCHAR, then BIGINT
for integer, DOUBLE for float, BOOLEAN for bool, TIMESTAMP for datetime. -/
def infer_duckdb_type : Dtype → String
  | .int64 => "BIGINT"
  | .float64 => "DOUBLE"
  | .boolCol => "BOOLEAN"
  | .datetime64 => "TIMESTAMP"
  | .objectCol => "VARCHAR"

/-- One DataFrame column: name, dtype, and its cells from top to bottom. -/
structure Col where
  name : String
  dtype : Dtype
  cells : List String
deriving DecidableEq

/-- Column-oriented DataFrame, as handed to the ingestion code. -/
abbrev Frame := List Col

/-- Row count of a frame, the length of its first column. -/
def frame_nrows : Frame → Nat
  | [] => 0
  | c :: _ => c.cells.length

/-- One stored row, an assignment of values to column names. -/
abbrev Row := List (String × String)

/-- A DuckDB table: ordered columns with their declared types, the optional
primary-key column, and the stored rows. -/
structure DBTable where
  cols : List (String × String)
  pk : Option String
  rows : List Row
deriving DecidableEq

/-- Line 290: CREATE TABLE IF NOT EXISTS company_info (Ticker VARCHAR,
PRIMARY KEY (Ticker)). -/
def company_info_empty_table : DBTable :=
  ⟨[("Ticker", "VARCHAR")], some "Ticker", []⟩

/-- Value a row supplies for the primary-key column, if any. -/
def rowPkValue (pk : String) (r : Row) : Option String :=
  (r.find? (fun p => p.1 == pk)).map (fun p => p.2)

/-- DuckDB INSERT BY NAME (line 338): appends the rows; when the table has a
primary key the whole statement fails on a missing key value, on a key value
already stored, or on a key value repeated within the inserted rows. -/
def insertByName (t : DBTable) (newRows : List Row) : Except String DBTable :=
  match t.pk with
  | none => .ok { t with rows := t.rows ++ newRows }
  | some pk =>
    if newRows.any (fun r =>
        match rowPkValue pk r with
        | none => true
        | some v => (t.rows.filterMap (rowPkValue pk)).contains v) then
      .error "Constraint Error: duplicate primary key"
    else if (newRows.filterMap (rowPkValue pk)).Nodup then
      .ok { t with rows := t.rows ++ newRows }
    else
      .error "Constraint Error: duplicate primary key within insert"

/-- Result of the column-adding pass: the evolved table, the additive
changes that succeeded (with the type used), and the skipped columns. -/
structure AddColsTrace where
  table : DBTable
  added : List (String × String)
  skipped : List String
deriving DecidableEq

/-- Per-column schema evolution of lines 313 to 325. The literal fallback
line 321 of src/data.py is a Python syntax error (its f-string quoting is
malformed); modelled from the spec: on failure of the typed ALTER TABLE ADD
COLUMN, retry once forcing VARCHAR, and on a second failure skip the column
and continue with the rest. ALTER failures are scripted by the alterOk
oracle. -/
def add_new_columns (alterOk : String → String → Bool) :
    DBTable → List (String × String) → AddColsTrace
  | t, [] => ⟨t, [], []⟩
  | t, (name, ty) :: rest =>
    if alterOk name ty then
      let tr := add_new_columns alterOk { t with cols := t.cols ++ [(name, ty)] } rest
      ⟨tr.table, (name, ty) :: tr.added, tr.skipped⟩
    else if alterOk name "VARCHAR" then
      let tr := add_new_columns alterOk { t with cols := t.cols ++ [(name, "VARCHAR")] } rest
      ⟨tr.table, (name, "VARCHAR") :: tr.added, tr.skipped⟩
    else
      let tr := add_new_columns alterOk t rest
      ⟨tr.table, tr.added, name :: tr.skipped⟩

/-- Observable trace of one company_info ingestion: the table afterwards,
the additive changes, the skipped columns, the projected column list, the
rows handed to INSERT BY NAME, and the insert error if the insert failed. -/
structure IngestTrace where
  table : DBTable
  columnsAdded : List (String × String)
  skippedColumns : List String
  insertedCols : List String
  rowsToInsert : List Row
  insertError : Option String
deriving DecidableEq

/-- Line 290 and 293 to 294: the table the ingestion starts from (created if
absent) and its current column names. -/
def existing_column_names (store : Option DBTable) : List String :=
  (store.getD company_info_empty_table).cols.map Prod.fst

/-- Lines 296 to 310: the incoming columns absent from the table, paired
with their inferred DuckDB types. -/
def new_columns_to_add (store : Option DBTable) (info_df : Frame) : List (String × String) :=
  (info_df.filter (fun c => !((existing_column_names store).contains c.name))).map
    (fun c => (c.name, infer_duckdb_type c.dtype))

/-- Lines 312 to 325: the table after the per-column additive evolution. -/
def evolved (alterOk : String → String → Bool) (store : Option DBTable)
    (info_df : Frame) : AddColsTrace :=
  add_new_columns alterOk (store.getD company_info_empty_table)
    (new_columns_to_add store info_df)

/-- Lines 328 to 330: the column names re-read after the additions. -/
def final_existing_column_names (alterOk : String → String → Bool) (store : Option DBTable)
    (info_df : Frame) : List String :=
  (evolved alterOk store info_df).table.cols.map Prod.fst

/-- Lines 332 to 333: the frame projected onto the columns that now exist. -/
def info_df_filtered (alterOk : String → String → Bool) (store : Option DBTable)
    (info_df : Frame) : Frame :=
  info_df.filter (fun c => (final_existing_column_names alterOk store info_df).contains c.name)

/-- The rows handed to INSERT BY NAME: one assignment keyed by column name
per frame row, over the projected columns. -/
def info_rows_to_insert (alterOk : String → String → Bool) (store : Option DBTable)
    (info_df : Frame) : List Row :=
  (List.range (frame_nrows info_df)).map
    (fun r => (info_df_filtered alterOk store info_df).map (fun c => (c.name, c.cells.getD r "NULL")))

/-- The company_info ingestion of lines 286 to 339: ensure the table exists,
diff the incoming columns against the current ones, add the missing columns
with inferred types (degrading per add_new_columns), re-read the columns,
project the frame onto the columns that now exist, and INSERT BY NAME. A
failing insert leaves the table rows unchanged (the exception escapes to the
per-ticker handler at line 425). -/
def ingest_company_info (alterOk : String → String → Bool) (store : Option DBTable)
    (info_df : Frame) : IngestTrace :=
  match insertByName (evolved alterOk store info_df).table
      (info_rows_to_insert alterOk store info_df) with
  | .ok t₁ =>
    ⟨t₁, (evolved alterOk store info_df).added, (evolved alterOk store info_df).skipped,
     (info_df_filtered alterOk store info_df).map Col.name,
     info_rows_to_insert alterOk store info_df, none⟩
  | .error e =>
    ⟨(evolved alterOk store info_df).table, (evolved alterOk store info_df).added,
     (evolved alterOk store info_df).skipped,
     (info_df_filtered alterOk store info_df).map Col.name,
     info_rows_to_insert alterOk store info_df, some e⟩

/-- ALTER oracle under which every additive schema change succeeds. -/
def alterAlwaysOk : String → String → Bool := fun _ _ => true

/-- Line 412 to 414: CREATE TABLE IF NOT EXISTS with the fixed three-column
schema (Ticker VARCHAR, Date TIMESTAMP, Value VARCHAR) and no primary key. -/
def datasets_table : DBTable :=
  ⟨[("Ticker", "VARCHAR"), ("Date", "TIMESTAMP"), ("Value", "VARCHAR")], none, []⟩

/-- Line 415: INSERT INTO name SELECT * FROM final_df. DuckDB binds the
selected columns to the table columns positionally, failing when the counts
differ; column names play no role. On a count match every value is implicitly
cast to the declared type of its positional target column: one failing cast
raises a Conversion Error and aborts the whole statement, storing nothing.
Whether a value casts to a DuckDB type is abstracted as the castOk oracle
(like the timestamp parser of the normalizer); values are carried in their
textual form. -/
def insert_select_star (castOk : String → String → Bool) (t : DBTable)
    (final_df : Frame) : Except String DBTable :=
  let newRows := (List.range (frame_nrows final_df)).map
    (fun r => (t.cols.zip final_df).map (fun p => (p.1.1, p.2.cells.getD r "NULL")))
  if final_df.length == t.cols.length then
    if (List.range (frame_nrows final_df)).all (fun r =>
        (t.cols.zip final_df).all (fun p => castOk (p.2.cells.getD r "NULL") p.1.2)) then
      .ok { t with rows := t.rows ++ newRows }
    else
      .error "Conversion Error: could not cast value to the column type"
  else
    .error "Binder Error: table columns do not match value count"

/- ===================== Progress tracker and main driver (lines 645 to 678) ===================== -/

/-- How processing one ticker inside fetch_and_store_non_ohlcv_data ends:
normally, with an exception caught at line 425, or with the operator
interrupt re-raised at line 424. -/
inductive TickerOutcome
  | done
  | err (msg : String)
  | interrupt
deriving DecidableEq

/-- Boolean test for the interrupt outcome. -/
def is_interrupt : TickerOutcome → Bool
  | .interrupt => true
  | _ => false

/-- Symbols whose loop iteration ran to completion: a caught exception
(line 425 to 426) continues with the next symbol, an interrupt stops the
loop at once. -/
def symbols_attempted (outcomes : String → TickerOutcome) : List String → List String
  | [] => []
  | s :: rest =>
    if is_interrupt (outcomes s) then [] else s :: symbols_attempted outcomes rest

/-- A batch completes exactly when no symbol in it raises the interrupt. -/
def batch_completes (outcomes : String → TickerOutcome) (batch : List String) : Bool :=
  batch.all (fun s => !(is_interrupt (outcomes s)))

/-- The driver loop of lines 669 to 674: process each batch; after a batch
completes append its symbols to the progress file; an interrupt ends the run
before the current batch is recorded. Returns the lines appended during the
run. -/
def run_batches (outcomes : String → TickerOutcome) : List (List String) → List String
  | [] => []
  | b :: bs => if batch_completes outcomes b then b ++ run_batches outcomes bs else []

/-- Line 661: tickers_to_process keeps, in order, the universe entries not
in the recorded set. -/
def tickers_to_process (all_tickers processed : List String) : List String :=
  all_tickers.filter (fun t => !(processed.contains t))

/- ===================== Helper lemmas for the batch partition ===================== -/

theorem chunksOfPos_flatten (k : Nat) (l : List α) : (chunksOfPos k l).flatten = l := by
  induction l using chunksOfPos.induct k with
  | case1 => simp [chunksOfPos]
  | case2 x xs ih =>
    simp only [chunksOfPos, List.flatten_cons, ih]
    rw [show xs.drop k = (x :: xs).drop (k+1) by simp]
    exact List.take_append_drop (k+1) (x :: xs)

theorem ceil_div_succ (n k : Nat) (h : 1 ≤ n) :
    (n + k) / (k+1) = ((n - (k+1) + k) / (k+1)) + 1 := by
  rcases Nat.lt_or_ge n (k+1) with hlt | hge
  · have h1 : n - (k+1) = 0 := by omega
    rw [h1, Nat.zero_add]
    have h2 : k / (k+1) = 0 := Nat.div_eq_of_lt (by omega)
    have h3 : (n + k) / (k+1) = 1 := by
      rw [Nat.div_eq_sub_div (by omega) (by omega)]
      have hx : n + k - (k+1) < k + 1 := by omega
      rw [Nat.div_eq_of_lt hx]
    omega
  · have hx : n + k = (n - (k+1) + k) + (k+1) := by omega
    rw [hx, Nat.add_div_right _ (Nat.succ_pos k)]

theorem chunksOfPos_length (k : Nat) (l : List α) :
    (chunksOfPos k l).length = (l.length + k) / (k+1) := by
  induction l using chunksOfPos.induct k with
  | case1 => simp [chunksOfPos, Nat.div_eq_of_lt (show k < k+1 by omega)]
  | case2 x xs ih =>
    simp only [chunksOfPos, List.length_cons, ih, List.length_drop]
    rw [ceil_div_succ (xs.length + 1) k (by omega)]
    congr 2
    omega

theorem range_map_eq_chunksOfPos (k : Nat) (l : List α) :
    (List.range ((l.length + k) / (k+1))).map (fun i => (l.drop (i * (k+1))).take (k+1)) =
      chunksOfPos k l := by
  induction l using chunksOfPos.induct k with
  | case1 => simp [chunksOfPos, Nat.div_eq_of_lt (show k < k+1 by omega)]
  | case2 x xs ih =>
    have hlen : ((x :: xs).length + k) / (k+1) = (((xs.drop k).length + k) / (k+1)) + 1 := by
      rw [List.length_cons, List.length_drop, ceil_div_succ (xs.length + 1) k (by omega)]
      congr 2
      omega
    rw [hlen, List.range_succ_eq_map, List.map_cons, List.map_map]
    simp only [chunksOfPos]
    congr 1
    · simp
    rw [← ih]
    apply List.map_congr_left
    intro i _
    simp only [Function.comp]
    rw [show Nat.succ i * (k+1) = (k+1) + i * (k+1) by rw [Nat.succ_mul, Nat.add_comm]]
    rw [← List.drop_drop]
    rw [show (x :: xs).drop (k+1) = xs.drop k by simp]

theorem chunksOfPos_eq_nil_iff (k : Nat) (l : List α) : chunksOfPos k l = [] ↔ l = [] := by
  cases l <;> simp [chunksOfPos]

theorem chunksOfPos_mem (k : Nat) (l : List α) :
    ∀ c ∈ chunksOfPos k l, c.length ≤ k + 1 ∧ c ≠ [] := by
  induction l using chunksOfPos.induct k with
  | case1 => simp [chunksOfPos]
  | case2 x xs ih =>
    intro c hc
    simp only [chunksOfPos] at hc
    rcases List.mem_cons.mp hc with h | h
    · subst h
      constructor
      · simp
      · simp
    · exact ih c h

theorem chunksOfPos_dropLast (k : Nat) (l : List α) :
    ∀ c ∈ (chunksOfPos k l).dropLast, c.length = k + 1 := by
  induction l using chunksOfPos.induct k with
  | case1 => simp [chunksOfPos]
  | case2 x xs ih =>
    intro c hc
    simp only [chunksOfPos] at hc
    rcases hrest : chunksOfPos k (xs.drop k) with _ | ⟨r, rs⟩
    · rw [hrest] at hc
      simp at hc
    · rw [hrest, List.dropLast_cons₂] at hc
      rcases List.mem_cons.mp hc with h1 | h1
      · subst h1
        have hne : xs.drop k ≠ [] := by
          intro he
          rw [he] at hrest
          simp [chunksOfPos] at hrest
        have hklt : k < xs.length := by
          have hld : (xs.drop k).length = xs.length - k := by simp
          have : (xs.drop k).length ≠ 0 := fun h0 => hne (List.eq_nil_of_length_eq_zero h0)
          omega
        simp only [List.length_take, List.length_cons]
        omega
      · rw [← hrest] at h1
        exact ih c h1

theorem pyRangeLen_pos (n k : Nat) : pyRangeLen 0 n ((k : Int) + 1) = (n + k) / (k + 1) := by
  unfold pyRangeLen
  rw [if_pos (show (0 : Int) < (k : Int) + 1 by omega)]
  have hnum : ((n : Int) - 0 + ((k : Int) + 1) - 1) = ((n + k : Nat) : Int) := by
    push_cast
    ring
  have hden : ((k : Int) + 1) = ((k + 1 : Nat) : Int) := by push_cast; ring
  rw [hnum, hden, ← Int.ofNat_ediv, Int.toNat_natCast]

theorem pyRange_pos (n k : Nat) :
    pyRange 0 n ((k : Int) + 1) =
      .ok ((List.range ((n + k) / (k + 1))).map (fun i : Nat => ((i * (k + 1) : Nat) : Int))) := by
  have hbeq : (((k : Int) + 1) == 0) = false := by
    simp only [beq_eq_false_iff_ne]
    omega
  unfold pyRange
  rw [hbeq, pyRangeLen_pos]
  simp only [Bool.false_eq_true, if_false]
  congr 1
  apply List.map_congr_left
  intro i _
  push_cast
  ring

theorem list_chunks_pos (l : List α) (k : Nat) :
    list_chunks l ((k : Int) + 1) = .ok (chunksOfPos k l) := by
  simp only [list_chunks, pyRange_pos l.length k, List.map_map]
  congr 1
  rw [← range_map_eq_chunksOfPos k l]
  apply List.map_congr_left
  intro i _
  simp only [Function.comp, Int.toNat_natCast]
  have h2 : (((k : Int) + 1)).toNat = k + 1 := by omega
  rw [h2]

/- ===================== Claim C1 ===================== -/

/-- Claim C1, amended. For every symbol sequence S: with a positive size k the
partition of the source comprehension succeeds and its batches concatenate
back to S in order, the batch count is the ceiling of the length divided by k,
every batch but the last has length exactly k, and every batch is nonempty of
length at most k (the partition is a pure function of its inputs, so
determinism and absence of side effects are inherent to the embedding). A size
of exactly 0 raises ValueError inside range. Contrary to the claim, a negative
size is not an error: range(0, n, negative) is empty, so the comprehension
silently yields zero batches. -/
theorem C1_batch_partition (S : List String) (k : Int) :
    (0 < k →
      ∃ bs, list_chunks S k = .ok bs ∧
        bs.flatten = S ∧
        bs.length = (S.length + (k.toNat - 1)) / k.toNat ∧
        (∀ c ∈ bs.dropLast, c.length = k.toNat) ∧
        (∀ c ∈ bs, c.length ≤ k.toNat ∧ c ≠ [])) ∧
    (k = 0 → list_chunks S k = .error "ValueError: range arg 3 must not be zero") ∧
    (k < 0 → list_chunks S k = .ok []) := by
  refine ⟨?_, ?_, ?_⟩
  · intro hk
    obtain ⟨m, hm⟩ : ∃ m : Nat, k = (m : Int) + 1 := ⟨(k - 1).toNat, by omega⟩
    subst hm
    refine ⟨chunksOfPos m S, list_chunks_pos S m, chunksOfPos_flatten m S, ?_, ?_, ?_⟩
    · rw [chunksOfPos_length]
      congr 1
    · have h := chunksOfPos_dropLast m S
      intro c hc
      rw [h c hc]
      omega
    · have h := chunksOfPos_mem m S
      intro c hc
      rcases h c hc with ⟨h1, h2⟩
      refine ⟨by omega, h2⟩
  · intro hk
    subst hk
    rfl
  · intro hk
    have hbeq : ((k : Int) == 0) = false := by
      simp only [beq_eq_false_iff_ne]
      omega
    have hlen : pyRangeLen 0 S.length k = 0 := by
      unfold pyRangeLen
      rw [if_neg (by omega : ¬ (0 : Int) < k)]
      apply Int.toNat_of_nonpos
      have hdiv : (0 - (S.length : Int) + -k - 1) / -k < 1 := by
        rw [Int.ediv_lt_iff_lt_mul (by omega : (0 : Int) < -k)]
        have : (0 : Int) ≤ (S.length : Int) := by positivity
        omega
      omega
    unfold list_chunks pyRange
    rw [hbeq, hlen]
    simp

/-- Claim C1 counterexample: with size negative 1 (which the claim calls an
error) the partition of a nonempty sequence returns successfully with zero
batches instead of raising. -/
theorem C1_negative_size_not_error_cex :
    list_chunks ["AAA"] (-1) = .ok ([] : List (List String)) ∧
    (list_chunks ["AAA"] (-1)).isOk = true := by
  constructor
  · rfl
  · rfl

/-- Claim C1 witness: the spec scenario, input AAA BBB CCC with size 2. -/
theorem C1_batch_partition_witness :
    ∃ bs, list_chunks ["AAA", "BBB", "CCC"] 2 = .ok bs ∧
      bs.flatten = ["AAA", "BBB", "CCC"] ∧
      bs.length = (3 + (2 - 1)) / 2 ∧
      (∀ c ∈ bs.dropLast, c.length = 2) ∧
      (∀ c ∈ bs, c.length ≤ 2 ∧ c ≠ []) := by
  have h := (C1_batch_partition ["AAA", "BBB", "CCC"] 2).1 (by omega)
  simpa using h

/- ===================== Claim C2 ===================== -/

/-- Claim C2, amended. On the symbol-level path a provider error that is not
classified as rate-limiting returns failure immediately: exactly one attempt,
no sleeping. On the batch path, contrary to the claim, every error is retried
while retries is below max_retries: a non-rate-limit error sleeps
delay_seconds (rather than retry_delay_seconds) and the loop attempts the
download again. -/
theorem C2_non_rate_limit_errors (msg bmsg : String) (dur : Nat)
    (rest : List (AttemptOutcome × Nat)) (bscript : List BatchOutcome)
    (max_retries retry_delay delay retries : Nat)
    (h : is_rate_limit_error msg = false)
    (hb : is_rate_limit_error_batch bmsg = false)
    (hr : retries < max_retries) :
    fetch_data_with_retry ((.exc msg, dur) :: rest) = ⟨.failedOther, 1, [], dur⟩ ∧
    batchRetryLoop max_retries retry_delay delay (.exc bmsg :: bscript) retries =
      ⟨(batchRetryLoop max_retries retry_delay delay bscript (retries + 1)).result,
       (batchRetryLoop max_retries retry_delay delay bscript (retries + 1)).attempts + 1,
       delay :: (batchRetryLoop max_retries retry_delay delay bscript (retries + 1)).sleeps⟩ := by
  constructor
  · show fetchLoop ((.exc msg, dur) :: rest) 0 0 = ⟨.failedOther, 1, [], dur⟩
    rw [fetchLoop]
    rw [if_pos (by norm_num [MAX_RETRY_SECONDS])]
    simp [h]
  · rw [batchRetryLoop]
    rw [if_pos hr]
    simp [hb]

/-- Claim C2 counterexample: on the batch path of download_all_stock_data
(default parameters), a first attempt failing with an error that carries no
rate-limit marker is followed by a sleep of delay_seconds (10) and a second
attempt, which here succeeds: 2 attempts and one sleep, not an immediate
failure with zero additional attempts. -/
theorem C2_batch_path_retries_cex :
    download_chunk_with_retries [.exc "HTTP Error 404: Not Found", .downloaded false] =
      ⟨.succeeded true, 2, [10]⟩ ∧
    is_rate_limit_error_batch "HTTP Error 404: Not Found" = false := by
  constructor
  · rfl
  · rfl

/-- Claim C2 witness: symbol-level fetch of a delisted symbol fails at once
with one attempt and no sleep; batch path with the same kind of error retries
once into an exhausted script. -/
theorem C2_non_rate_limit_errors_witness :
    fetch_data_with_retry [(.exc "No data found, symbol may be delisted", 3)] =
      ⟨.failedOther, 1, [], 3⟩ ∧
    batchRetryLoop 5 600 10 [.exc "No data found, symbol may be delisted"] 0 =
      ⟨(batchRetryLoop 5 600 10 [] 1).result,
       (batchRetryLoop 5 600 10 [] 1).attempts + 1,
       10 :: (batchRetryLoop 5 600 10 [] 1).sleeps⟩ :=
  C2_non_rate_limit_errors "No data found, symbol may be delisted"
    "No data found, symbol may be delisted" 3 [] [] 5 600 10 0 (by rfl) (by rfl) (by omega)

/- ===================== Claim C9 ===================== -/

/-- Claim C9. A provider call that returns a structurally present but empty
response (None, an empty DataFrame or Series, or an empty dict) is passed
through as the outcome of the very first attempt: one attempt, no sleeping,
and the outcome is neither the non-retryable failure nor the timeout. -/
theorem C9_empty_result_single_attempt (d : PyData) (dur : Nat)
    (rest : List (AttemptOutcome × Nat)) (hempty : isEmptyPayload d = true) :
    fetch_data_with_retry ((.value d, dur) :: rest) = ⟨.fetched d, 1, [], dur⟩ ∧
    FetchResult.fetched d ≠ .failedOther ∧ FetchResult.fetched d ≠ .timedOut := by
  refine ⟨?_, by simp, by simp⟩
  show fetchLoop ((.value d, dur) :: rest) 0 0 = ⟨.fetched d, 1, [], dur⟩
  rw [fetchLoop]
  rw [if_pos (by norm_num [MAX_RETRY_SECONDS])]
  simp

/-- Claim C9 witness: an empty DataFrame response is returned after exactly
one attempt with no sleeps. -/
theorem C9_empty_result_single_attempt_witness :
    fetch_data_with_retry [(.value (.frame 0), 2)] = ⟨.fetched (.frame 0), 1, [], 2⟩ ∧
    FetchResult.fetched (.frame 0) ≠ .failedOther ∧
    FetchResult.fetched (.frame 0) ≠ .timedOut :=
  C9_empty_result_single_attempt (.frame 0) 2 [] (by rfl)

/- ===================== Claim C4 ===================== -/

theorem fetchLoop_all_rate_limited (script : List (AttemptOutcome × Nat)) :
    ∀ clock attempts, (∀ p ∈ script, isRateLimitAttempt p = true) →
      MAX_RETRY_SECONDS ≤ clock + (script.map (fun p => p.2 + RETRY_DELAY_SECONDS)).sum →
      (fetchLoop script clock attempts).result = .timedOut := by
  induction script with
  | nil =>
    intro clock attempts _ hbudget
    simp only [List.map_nil, List.sum_nil, Nat.add_zero] at hbudget
    rw [fetchLoop, if_neg (by omega)]
  | cons p rest ih =>
    intro clock attempts hall hbudget
    obtain ⟨outcome, dur⟩ := p
    by_cases hc : clock < MAX_RETRY_SECONDS
    · have hp := hall (outcome, dur) (List.mem_cons_self _ _)
      cases outcome with
      | value d => simp [isRateLimitAttempt] at hp
      | exc msg =>
        simp only [isRateLimitAttempt] at hp
        rw [fetchLoop, if_pos hc]
        simp only [hp, if_true]
        apply ih
        · intro q hq
          exact hall q (List.mem_cons_of_mem _ hq)
        · simp only [List.map_cons, List.sum_cons] at hbudget
          omega
    · rw [fetchLoop.eq_def, if_neg hc]

/-- Claim C4. On the symbol-level path, while the elapsed time since the
call started is below MAX_RETRY_SECONDS, a rate-limit-classified error always
sleeps RETRY_DELAY_SECONDS and performs another attempt, whatever the attempt
count already is; and when every scripted outcome is a rate-limit error and
the scripted durations plus sleeps meet the budget, the call ends as a
timeout returning None, which the datasets caller treats as absent data
(nothing is stored). -/
theorem C4_time_budget (script : List (AttemptOutcome × Nat))
    (hall : ∀ p ∈ script, isRateLimitAttempt p = true)
    (hbudget : MAX_RETRY_SECONDS ≤ (script.map (fun p => p.2 + RETRY_DELAY_SECONDS)).sum) :
    ((fetch_data_with_retry script).result = .timedOut ∧
     dataset_processed (fetch_data_with_retry script).result = false) ∧
    (∀ msg dur rest clock attempts, clock < MAX_RETRY_SECONDS →
      is_rate_limit_error msg = true →
      fetchLoop ((.exc msg, dur) :: rest) clock attempts =
        ⟨(fetchLoop rest (clock + dur + RETRY_DELAY_SECONDS) (attempts + 1)).result,
         (fetchLoop rest (clock + dur + RETRY_DELAY_SECONDS) (attempts + 1)).attempts,
         RETRY_DELAY_SECONDS ::
           (fetchLoop rest (clock + dur + RETRY_DELAY_SECONDS) (attempts + 1)).sleeps,
         (fetchLoop rest (clock + dur + RETRY_DELAY_SECONDS) (attempts + 1)).elapsed⟩) := by
  constructor
  · have h : (fetch_data_with_retry script).result = .timedOut := by
      apply fetchLoop_all_rate_limited script 0 0 hall
      simpa using hbudget
    refine ⟨h, ?_⟩
    rw [h]
    rfl
  · intro msg dur rest clock attempts hc hmsg
    rw [fetchLoop, if_pos hc]
    simp [hmsg]

/-- Claim C4 witness: five rate-limited attempts of duration zero exhaust the
300 second budget with 60 second sleeps; the call times out and nothing is
stored; a single rate-limit error below budget sleeps and retries. -/
theorem C4_time_budget_witness :
    ((fetch_data_with_retry
        (List.replicate 5 (AttemptOutcome.exc "HTTP Error 429: Too Many Requests", 0))).result =
      .timedOut ∧
     dataset_processed
       (fetch_data_with_retry
         (List.replicate 5 (AttemptOutcome.exc "HTTP Error 429: Too Many Requests", 0))).result =
      false) ∧
    fetchLoop [(.exc "HTTP Error 429: Too Many Requests", 0)] 0 0 =
      ⟨(fetchLoop [] (0 + 0 + RETRY_DELAY_SECONDS) (0 + 1)).result,
       (fetchLoop [] (0 + 0 + RETRY_DELAY_SECONDS) (0 + 1)).attempts,
       RETRY_DELAY_SECONDS :: (fetchLoop [] (0 + 0 + RETRY_DELAY_SECONDS) (0 + 1)).sleeps,
       (fetchLoop [] (0 + 0 + RETRY_DELAY_SECONDS) (0 + 1)).elapsed⟩ := by
  have h := C4_time_budget
    (List.replicate 5 (AttemptOutcome.exc "HTTP Error 429: Too Many Requests", 0))
    (by decide) (by decide)
  exact ⟨h.1, h.2 "HTTP Error 429: Too Many Requests" 0 [] 0 0
    (by norm_num [MAX_RETRY_SECONDS]) (by decide)⟩

/- ===================== Claims C8 and C10 ===================== -/

theorem symbols_attempted_of_complete (outcomes : String → TickerOutcome) (b : List String)
    (h : batch_completes outcomes b = true) : symbols_attempted outcomes b = b := by
  induction b with
  | nil => rfl
  | cons x xs ih =>
    simp only [batch_completes, List.all_cons, Bool.and_eq_true] at h
    have hx : is_interrupt (outcomes x) = false := by simpa using h.1
    simp only [symbols_attempted, hx, Bool.false_eq_true, if_false]
    rw [ih h.2]

theorem run_batches_of_complete (outcomes : String → TickerOutcome)
    (batches : List (List String))
    (h : ∀ b ∈ batches, batch_completes outcomes b = true) :
    run_batches outcomes batches = batches.flatten := by
  induction batches with
  | nil => rfl
  | cons b bs ih =>
    simp only [run_batches]
    rw [if_pos (h b (List.mem_cons_self _ _)),
      ih (fun x hx => h x (List.mem_cons_of_mem _ hx))]
    simp

theorem run_batches_stops (outcomes : String → TickerOutcome)
    (pre post : List (List String)) (b : List String)
    (hpre : ∀ x ∈ pre, batch_completes outcomes x = true)
    (hb : batch_completes outcomes b = false) :
    run_batches outcomes (pre ++ b :: post) = pre.flatten := by
  induction pre with
  | nil =>
    simp only [List.nil_append, run_batches, hb]
    simp
  | cons p ps ih =>
    simp only [List.cons_append, run_batches]
    rw [if_pos (hpre p (List.mem_cons_self _ _))]
    simp only [List.append_eq]
    rw [ih (fun x hx => hpre x (List.mem_cons_of_mem _ hx))]
    simp

/-- Claim C8. The driver appends a batch to the progress file only after the
batch completed: a run whose batch b is interrupted mid-processing records
exactly the symbols of the preceding completed batches, so none of the
symbols of b (the universe being duplicate-free) is recorded; and a restarted
run processes exactly the universe entries not in the recorded set, in their
original order, so with recorded set containing A and B out of the universe
A B C D only C and D are processed. -/
theorem C8_progress_resumability (outcomes : String → TickerOutcome)
    (pre post : List (List String)) (b : List String) (U P : List String)
    (hpre : ∀ x ∈ pre, batch_completes outcomes x = true)
    (hb : batch_completes outcomes b = false)
    (hnodup : ((pre ++ b :: post).flatten).Nodup) :
    run_batches outcomes (pre ++ b :: post) = pre.flatten ∧
    (∀ s ∈ b, s ∉ run_batches outcomes (pre ++ b :: post)) ∧
    (∀ t, t ∈ tickers_to_process U P ↔ t ∈ U ∧ t ∉ P) ∧
    List.Sublist (tickers_to_process U P) U ∧
    tickers_to_process ["A", "B", "C", "D"] ["A", "B"] = ["C", "D"] := by
  have hrun := run_batches_stops outcomes pre post b hpre hb
  refine ⟨hrun, ?_, ?_, List.filter_sublist U, by rfl⟩
  · intro s hs
    rw [hrun]
    simp only [List.flatten_append, List.flatten_cons] at hnodup
    have hdis := List.disjoint_of_nodup_append hnodup
    intro hmem
    exact hdis hmem (by simp [hs])
  · intro t
    simp [tickers_to_process, List.mem_filter, List.elem_iff]

/-- Claim C8 witness: batches [A] and [B] complete, batch [C] is interrupted,
[D] never starts; the run records exactly A and B, C is not recorded, and the
restart filter on universe A B C D with recorded set A B yields C D. -/
theorem C8_progress_resumability_witness :
    run_batches (fun s => if s == "C" then .interrupt else .done)
      ([["A"], ["B"]] ++ ["C"] :: [["D"]]) = [["A"], ["B"]].flatten ∧
    (∀ s ∈ ["C"], s ∉ run_batches (fun s => if s == "C" then .interrupt else .done)
      ([["A"], ["B"]] ++ ["C"] :: [["D"]])) ∧
    (∀ t, t ∈ tickers_to_process ["A", "B", "C", "D"] ["A", "B"] ↔
      t ∈ ["A", "B", "C", "D"] ∧ t ∉ ["A", "B"]) ∧
    List.Sublist (tickers_to_process ["A", "B", "C", "D"] ["A", "B"]) ["A", "B", "C", "D"] ∧
    tickers_to_process ["A", "B", "C", "D"] ["A", "B"] = ["C", "D"] :=
  C8_progress_resumability (fun s => if s == "C" then .interrupt else .done)
    [["A"], ["B"]] [["D"]] ["C"] ["A", "B", "C", "D"] ["A", "B"]
    (by decide) (by decide) (by decide)

/-- Claim C10. A symbol whose processing raises a non-interrupt exception is
caught at line 425 and the loop continues with the next symbol; the batch
still completes and the driver appends the whole batch, the failed symbol
included, to the progress file; a restarted run therefore never reprocesses
that symbol. -/
theorem C10_failed_symbol_marked_processed (outcomes : String → TickerOutcome)
    (batches : List (List String)) (bj : List String) (s msg : String) (U : List String)
    (hbj : bj ∈ batches) (hs : s ∈ bj)
    (herr : outcomes s = .err msg)
    (hall : ∀ b ∈ batches, batch_completes outcomes b = true) :
    (∀ rest : List String,
      symbols_attempted outcomes (s :: rest) = s :: symbols_attempted outcomes rest) ∧
    symbols_attempted outcomes bj = bj ∧
    run_batches outcomes batches = batches.flatten ∧
    s ∈ run_batches outcomes batches ∧
    s ∉ tickers_to_process U (run_batches outcomes batches) := by
  have hrun := run_batches_of_complete outcomes batches hall
  refine ⟨?_, symbols_attempted_of_complete outcomes bj (hall bj hbj), hrun, ?_, ?_⟩
  · intro rest
    simp [symbols_attempted, is_interrupt, herr]
  · rw [hrun]
    exact List.mem_flatten.mpr ⟨bj, hbj, hs⟩
  · have hmem : s ∈ run_batches outcomes batches := by
      rw [hrun]
      exact List.mem_flatten.mpr ⟨bj, hbj, hs⟩
    simp [tickers_to_process, List.mem_filter, List.elem_iff, hmem]

/-- Claim C10 witness: in batch [AAPL, FAIL, MSFT] the symbol FAIL raises a
caught exception; processing continues, the batch is recorded whole, and a
restart with the recorded set skips FAIL. -/
theorem C10_failed_symbol_marked_processed_witness :
    (∀ rest : List String,
      symbols_attempted (fun s => if s == "FAIL" then .err "boom" else .done) ("FAIL" :: rest) =
        "FAIL" :: symbols_attempted (fun s => if s == "FAIL" then .err "boom" else .done) rest) ∧
    symbols_attempted (fun s => if s == "FAIL" then .err "boom" else .done)
      ["AAPL", "FAIL", "MSFT"] = ["AAPL", "FAIL", "MSFT"] ∧
    run_batches (fun s => if s == "FAIL" then .err "boom" else .done)
      [["AAPL", "FAIL", "MSFT"]] = [["AAPL", "FAIL", "MSFT"]].flatten ∧
    "FAIL" ∈ run_batches (fun s => if s == "FAIL" then .err "boom" else .done)
      [["AAPL", "FAIL", "MSFT"]] ∧
    "FAIL" ∉ tickers_to_process ["AAPL", "FAIL", "MSFT", "TSLA"]
      (run_batches (fun s => if s == "FAIL" then .err "boom" else .done)
        [["AAPL", "FAIL", "MSFT"]]) :=
  C10_failed_symbol_marked_processed (fun s => if s == "FAIL" then .err "boom" else .done)
    [["AAPL", "FAIL", "MSFT"]] ["AAPL", "FAIL", "MSFT"] "FAIL" "boom"
    ["AAPL", "FAIL", "MSFT", "TSLA"]
    (by decide) (by decide) (by decide) (by decide)

/- ===================== Claim C5 ===================== -/

theorem statement_rows_length (parse_ts : String → Option Nat) (ticker : String)
    (metrics : List String) (cols : List (String × List String))
    (hwf : ∀ pc ∈ cols, pc.2.length = metrics.length) :
    (cols.flatMap (fun pc =>
      if (parse_ts pc.1).isSome then
        (metrics.zip pc.2).map (fun mv => (⟨ticker, mv.1, pc.1, mv.2⟩ : LongRow))
      else [])).length =
      metrics.length * ((cols.filter (fun pc => (parse_ts pc.1).isSome)).length) := by
  induction cols with
  | nil => simp
  | cons pc rest ih =>
    have hlen := hwf pc (List.mem_cons_self _ _)
    have ih2 := ih (fun q hq => hwf q (List.mem_cons_of_mem _ hq))
    by_cases hp : (parse_ts pc.1).isSome
    · simp only [List.flatMap_cons, List.length_append, List.filter_cons, hp, if_true, ih2,
        List.length_map, List.length_zip, hlen, Nat.min_self, List.length_cons]
      rw [Nat.mul_succ]
      omega
    · simp only [List.flatMap_cons, List.length_append, List.filter_cons,
        Bool.not_eq_true] at *
      simp [hp, ih2]

/-- Claim C5. Normalizing a periodicStatement dataset melts the period
columns into rows and then drops every row whose Date entry does not parse
as a timestamp: the output is exactly, in order, one row per metric per
parseable period column (with the matching cell value), its row count is the
metric count times the number of parseable period labels, every surviving
row carries a parseable date (none is stored with a null timestamp), and no
row at all survives for an unparseable label. -/
theorem C5_statement_normalization (parse_ts : String → Option Nat) (ticker : String)
    (sf : StatementFrame)
    (hwf : ∀ pc ∈ sf.columns, pc.2.length = sf.metrics.length) :
    normalize_statement parse_ts ticker sf =
      sf.columns.flatMap (fun pc =>
        if (parse_ts pc.1).isSome then
          (sf.metrics.zip pc.2).map (fun mv => (⟨ticker, mv.1, pc.1, mv.2⟩ : LongRow))
        else []) ∧
    (normalize_statement parse_ts ticker sf).length =
      sf.metrics.length * ((sf.columns.filter (fun pc => (parse_ts pc.1).isSome)).length) ∧
    (∀ r ∈ normalize_statement parse_ts ticker sf, (parse_ts r.date).isSome = true) ∧
    (∀ p, parse_ts p = none → ∀ r ∈ normalize_statement parse_ts ticker sf, r.date ≠ p) := by
  have hchar : normalize_statement parse_ts ticker sf =
      sf.columns.flatMap (fun pc =>
        if (parse_ts pc.1).isSome then
          (sf.metrics.zip pc.2).map (fun mv => (⟨ticker, mv.1, pc.1, mv.2⟩ : LongRow))
        else []) := by
    unfold normalize_statement melt_statement
    rw [List.filter_flatMap]
    congr 1
    funext pc
    by_cases hp : (parse_ts pc.1).isSome
    · rw [if_pos hp]
      apply List.filter_eq_self.mpr
      intro a ha
      obtain ⟨mv, _, rfl⟩ := List.mem_map.mp ha
      simpa using hp
    · rw [if_neg hp]
      apply List.filter_eq_nil_iff.mpr
      intro a ha
      obtain ⟨mv, _, rfl⟩ := List.mem_map.mp ha
      simpa using hp
  have hmem : ∀ r ∈ normalize_statement parse_ts ticker sf, (parse_ts r.date).isSome = true := by
    intro r hr
    exact (List.mem_filter.mp hr).2
  refine ⟨hchar, ?_, hmem, ?_⟩
  · rw [hchar]
    exact statement_rows_length parse_ts ticker sf.metrics sf.columns hwf
  · intro p hp r hr hdate
    have h := hmem r hr
    rw [hdate, hp] at h
    simp at h

/-- Claim C5 witness: the spec scenario. Period labels Total Revenue,
Q1 2023, Q2 2023 where only the latter two parse: the melt of a one-metric
statement keeps exactly one row per valid period, none for Total Revenue,
and no surviving row has an unparseable date. -/
theorem C5_statement_normalization_witness :
    normalize_statement
      (fun s => if s == "Q1 2023" then some 1 else if s == "Q2 2023" then some 2 else none)
      "AAPL"
      ⟨["Net Income"],
       [("Total Revenue", ["x"]), ("Q1 2023", ["100"]), ("Q2 2023", ["110"])]⟩ =
      [⟨"AAPL", "Net Income", "Q1 2023", "100"⟩, ⟨"AAPL", "Net Income", "Q2 2023", "110"⟩] ∧
    (normalize_statement
      (fun s => if s == "Q1 2023" then some 1 else if s == "Q2 2023" then some 2 else none)
      "AAPL"
      ⟨["Net Income"],
       [("Total Revenue", ["x"]), ("Q1 2023", ["100"]), ("Q2 2023", ["110"])]⟩).length = 1 * 2 ∧
    (∀ r ∈ normalize_statement
      (fun s => if s == "Q1 2023" then some 1 else if s == "Q2 2023" then some 2 else none)
      "AAPL"
      ⟨["Net Income"],
       [("Total Revenue", ["x"]), ("Q1 2023", ["100"]), ("Q2 2023", ["110"])]⟩,
      r.date ≠ "Total Revenue") := by
  have h := C5_statement_normalization
    (fun s => if s == "Q1 2023" then some 1 else if s == "Q2 2023" then some 2 else none)
    "AAPL"
    ⟨["Net Income"],
     [("Total Revenue", ["x"]), ("Q1 2023", ["100"]), ("Q2 2023", ["110"])]⟩
    (by decide)
  refine ⟨?_, ?_, ?_⟩
  · rw [h.1]
    rfl
  · rw [h.2.1]
    rfl
  · exact h.2.2.2 "Total Revenue" (by rfl)

/- ===================== Claim C3 ===================== -/

/-- Claim C3. The per-column schema-evolution policy (modelled from the spec,
the literal fallback line 321 being a Python syntax error): every incoming
column missing from the table is attempted with its inferred type; a failed
typed addition is retried exactly once forcing VARCHAR; a column failing both
is skipped while processing continues, so every column is either added (with
the typed or the forced-VARCHAR type) or skipped, the whole ingestion never
aborts, and the table gains exactly the added columns in order. -/
theorem C3_column_add_fallback (alterOk : String → String → Bool) (t : DBTable)
    (newcols : List (String × String)) :
    (add_new_columns alterOk t newcols).added =
      newcols.filterMap (fun nc =>
        if alterOk nc.1 nc.2 then some (nc.1, nc.2)
        else if alterOk nc.1 "VARCHAR" then some (nc.1, "VARCHAR") else none) ∧
    (add_new_columns alterOk t newcols).skipped =
      (newcols.filter (fun nc => !alterOk nc.1 nc.2 && !alterOk nc.1 "VARCHAR")).map Prod.fst ∧
    (add_new_columns alterOk t newcols).added.length +
      (add_new_columns alterOk t newcols).skipped.length = newcols.length ∧
    (add_new_columns alterOk t newcols).table.cols =
      t.cols ++ (add_new_columns alterOk t newcols).added ∧
    (add_new_columns alterOk t newcols).table.pk = t.pk ∧
    (add_new_columns alterOk t newcols).table.rows = t.rows := by
  induction newcols generalizing t with
  | nil => simp [add_new_columns]
  | cons nc rest ih =>
    obtain ⟨name, ty⟩ := nc
    by_cases h1 : alterOk name ty = true
    · have h := ih { t with cols := t.cols ++ [(name, ty)] }
      refine ⟨?_, ?_, ?_, ?_, ?_, ?_⟩
      · simp only [add_new_columns, h1, if_true, List.filterMap_cons]
        simp [h.1]
      · simp only [add_new_columns, h1, if_true, List.filter_cons, Bool.not_true,
          Bool.false_and, Bool.false_eq_true, if_false]
        exact h.2.1
      · simp only [add_new_columns, h1, if_true, List.length_cons]
        have hlen := h.2.2.1
        omega
      · simp only [add_new_columns, h1, if_true]
        rw [h.2.2.2.1]
        simp
      · simp only [add_new_columns, h1, if_true]
        exact h.2.2.2.2.1
      · simp only [add_new_columns, h1, if_true]
        exact h.2.2.2.2.2
    · by_cases h2 : alterOk name "VARCHAR" = true
      · have h := ih { t with cols := t.cols ++ [(name, "VARCHAR")] }
        refine ⟨?_, ?_, ?_, ?_, ?_, ?_⟩
        · simp only [add_new_columns, h1, h2, if_true, Bool.false_eq_true, if_false,
            List.filterMap_cons]
          simp [h.1]
        · simp only [add_new_columns, h1, h2, if_true, Bool.false_eq_true, if_false,
            List.filter_cons]
          simp only [h1, h2, Bool.not_false, Bool.not_true, Bool.and_false, Bool.false_eq_true,
            if_false]
          exact h.2.1
        · simp only [add_new_columns, h1, h2, if_true, Bool.false_eq_true, if_false,
            List.length_cons]
          have hlen := h.2.2.1
          omega
        · simp only [add_new_columns, h1, h2, if_true, Bool.false_eq_true, if_false]
          rw [h.2.2.2.1]
          simp
        · simp only [add_new_columns, h1, h2, if_true, Bool.false_eq_true, if_false]
          exact h.2.2.2.2.1
        · simp only [add_new_columns, h1, h2, if_true, Bool.false_eq_true, if_false]
          exact h.2.2.2.2.2
      · have h := ih t
        refine ⟨?_, ?_, ?_, ?_, ?_, ?_⟩
        · simp only [add_new_columns, h1, h2, Bool.false_eq_true, if_false,
            List.filterMap_cons]
          simp [h1, h2, h.1]
        · simp only [add_new_columns, h1, h2, Bool.false_eq_true, if_false,
            List.filter_cons]
          simp [h1, h2, h.2.1]
        · simp only [add_new_columns, h1, h2, Bool.false_eq_true, if_false,
            List.length_cons]
          have hlen := h.2.2.1
          omega
        · simp only [add_new_columns, h1, h2, Bool.false_eq_true, if_false]
          exact h.2.2.2.1
        · simp only [add_new_columns, h1, h2, Bool.false_eq_true, if_false]
          exact h.2.2.2.2.1
        · simp only [add_new_columns, h1, h2, Bool.false_eq_true, if_false]
          exact h.2.2.2.2.2

/- ===================== Claim C6 ===================== -/

theorem insertByName_ok_eq (t : DBTable) (newRows : List Row) (t' : DBTable)
    (h : insertByName t newRows = .ok t') : t' = { t with rows := t.rows ++ newRows } := by
  unfold insertByName at h
  repeat' split at h
  all_goals
    first
      | (simp only [Except.ok.injEq] at h
         exact h.symm)
      | simp at h

theorem ingest_company_info_unfold (alterOk : String → String → Bool) (store : Option DBTable)
    (f : Frame) :
    (ingest_company_info alterOk store f).columnsAdded = (evolved alterOk store f).added ∧
    (ingest_company_info alterOk store f).insertedCols =
      (info_df_filtered alterOk store f).map Col.name ∧
    (ingest_company_info alterOk store f).rowsToInsert = info_rows_to_insert alterOk store f ∧
    (ingest_company_info alterOk store f).table.cols = (evolved alterOk store f).table.cols ∧
    (ingest_company_info alterOk store f).table.pk = (evolved alterOk store f).table.pk ∧
    ((ingest_company_info alterOk store f).insertError = none →
      (ingest_company_info alterOk store f).table.rows =
        (evolved alterOk store f).table.rows ++ info_rows_to_insert alterOk store f) ∧
    (∀ e, insertByName (evolved alterOk store f).table (info_rows_to_insert alterOk store f) =
        .error e →
      (ingest_company_info alterOk store f).insertError = some e ∧
      (ingest_company_info alterOk store f).table = (evolved alterOk store f).table) := by
  unfold ingest_company_info
  split
  next t1 heq =>
    have ht1 := insertByName_ok_eq _ _ _ heq
    subst ht1
    refine ⟨rfl, rfl, rfl, rfl, rfl, fun _ => rfl, ?_⟩
    intro e he
    rw [he] at heq
    simp at heq
  next e heq =>
    refine ⟨rfl, rfl, rfl, rfl, rfl, ?_, ?_⟩
    · intro hnone
      simp at hnone
    · intro e₂ he₂
      rw [he₂] at heq
      simp only [Except.error.injEq] at heq
      exact ⟨by rw [heq], rfl⟩

/-- Claim C6, amended. The projection-then-insert-by-name behavior holds for
the company_info path: every inserted column name comes from the incoming
frame and exists in the destination table, incoming columns the table lacks
are silently dropped, and each row handed to INSERT BY NAME binds exactly the
projected column names. The statement, holders and dividends path of lines
412 to 415, contrary to the claim, creates a fixed three-column table and
runs INSERT INTO name SELECT *, which binds positionally: a column-count
mismatch fails the whole insert; on a count match each value is cast to the
declared type of its positional target column, one failing cast aborting the
insert with nothing stored; and a fully castable insert binds the values to
the table columns in positional order regardless of the frame column names. -/
theorem C6_projection_and_insertion (alterOk : String → String → Bool)
    (castOk : String → String → Bool)
    (store : Option DBTable) (f : Frame) (t : DBTable) (g : Frame) :
    (∀ name ∈ (ingest_company_info alterOk store f).insertedCols,
      name ∈ f.map Col.name ∧
      name ∈ ((ingest_company_info alterOk store f).table.cols.map Prod.fst)) ∧
    (∀ c ∈ f, c.name ∉ ((ingest_company_info alterOk store f).table.cols.map Prod.fst) →
      c.name ∉ (ingest_company_info alterOk store f).insertedCols) ∧
    (∀ row ∈ (ingest_company_info alterOk store f).rowsToInsert,
      row.map Prod.fst = (ingest_company_info alterOk store f).insertedCols) ∧
    (g.length ≠ t.cols.length →
      insert_select_star castOk t g =
        .error "Binder Error: table columns do not match value count") ∧
    (g.length = t.cols.length →
      ((List.range (frame_nrows g)).all (fun r =>
        (t.cols.zip g).all (fun p => castOk (p.2.cells.getD r "NULL") p.1.2))) = false →
      insert_select_star castOk t g =
        .error "Conversion Error: could not cast value to the column type") ∧
    (∀ t', g.length = t.cols.length → insert_select_star castOk t g = .ok t' →
      t'.rows = t.rows ++ (List.range (frame_nrows g)).map
        (fun r => (t.cols.zip g).map (fun p => (p.1.1, p.2.cells.getD r "NULL"))) ∧
      ∀ row ∈ t'.rows.drop t.rows.length, row.map Prod.fst = t.cols.map Prod.fst) := by
  obtain ⟨_, hic, hrti, hcols, _, _, _⟩ := ingest_company_info_unfold alterOk store f
  refine ⟨?_, ?_, ?_, ?_, ?_, ?_⟩
  · intro name hname
    rw [hic] at hname
    obtain ⟨c, hc, rfl⟩ := List.mem_map.mp hname
    have hcf := List.mem_filter.mp hc
    refine ⟨List.mem_map_of_mem _ hcf.1, ?_⟩
    rw [hcols]
    have h2 := hcf.2
    unfold final_existing_column_names at h2
    simpa [List.elem_iff] using h2
  · intro c hcf hnot hmem
    rw [hic] at hmem
    obtain ⟨c', hc', heq⟩ := List.mem_map.mp hmem
    have h2 := (List.mem_filter.mp hc').2
    unfold final_existing_column_names at h2
    apply hnot
    rw [hcols, ← heq]
    simpa [List.elem_iff] using h2
  · intro row hrow
    rw [hrti] at hrow
    unfold info_rows_to_insert at hrow
    obtain ⟨r, _, rfl⟩ := List.mem_map.mp hrow
    rw [hic, List.map_map]
    rfl
  · intro hne
    have hb : (g.length == t.cols.length) = false := by simp [hne]
    unfold insert_select_star
    simp [hb]
  · intro heqlen hcast
    have hb : (g.length == t.cols.length) = true := by simp [heqlen]
    have hnc : ¬ (((List.range (frame_nrows g)).all (fun r =>
        (t.cols.zip g).all (fun p => castOk (p.2.cells.getD r "NULL") p.1.2))) = true) := by
      rw [hcast]
      simp
    unfold insert_select_star
    rw [if_pos hb, if_neg hnc]
  · intro t' heqlen hok
    have hb : (g.length == t.cols.length) = true := by simp [heqlen]
    unfold insert_select_star at hok
    rw [if_pos hb] at hok
    split at hok
    case isFalse => simp at hok
    simp only [Except.ok.injEq] at hok
    constructor
    · rw [← hok]
    · intro row hrow
      rw [← hok] at hrow
      simp only [List.drop_left] at hrow
      obtain ⟨r, _, rfl⟩ := List.mem_map.mp hrow
      rw [List.map_map]
      show ((t.cols.zip g).map fun p => p.1.1) = t.cols.map Prod.fst
      rw [show (fun p : (String × String) × Col => p.1.1) =
        (Prod.fst ∘ Prod.fst) from rfl, ← List.map_map, List.map_fst_zip]
      omega

/-- Claim C6 counterexample: the statements path inserts positionally, not by
name (the cast oracle here lets VARCHAR accept anything and TIMESTAMP accept
only the date literal 2023-01-01, as DuckDB would). A three-column frame
whose columns are named Value, Date, Ticker in that order has every value
castable to its positional target, so the insert is accepted — and the cell
of the frame column named Value (42) is stored under the table column Ticker
while AAPL, the cell of the frame column named Ticker, lands under Value. A
frame ordered Value, Ticker, Date instead puts AAPL under the TIMESTAMP
column Date: the cast fails, the whole insert raises a Conversion Error and
nothing is stored. And the typical melted statement frame with four columns
(Ticker, Metric, Date, Value) fails the whole INSERT because the fixed table
has three columns. None of these behaviors aligns columns by name. -/
theorem C6_positional_insert_cex :
    insert_select_star (fun v ty => !(ty == "TIMESTAMP") || (v == "2023-01-01"))
      datasets_table
      [⟨"Value", .objectCol, ["42"]⟩, ⟨"Date", .objectCol, ["2023-01-01"]⟩,
       ⟨"Ticker", .objectCol, ["AAPL"]⟩] =
      .ok ⟨[("Ticker", "VARCHAR"), ("Date", "TIMESTAMP"), ("Value", "VARCHAR")], none,
        [[("Ticker", "42"), ("Date", "2023-01-01"), ("Value", "AAPL")]]⟩ ∧
    insert_select_star (fun v ty => !(ty == "TIMESTAMP") || (v == "2023-01-01"))
      datasets_table
      [⟨"Value", .objectCol, ["42"]⟩, ⟨"Ticker", .objectCol, ["AAPL"]⟩,
       ⟨"Date", .objectCol, ["2023-01-01"]⟩] =
      .error "Conversion Error: could not cast value to the column type" ∧
    insert_select_star (fun v ty => !(ty == "TIMESTAMP") || (v == "2023-01-01"))
      datasets_table
      [⟨"Ticker", .objectCol, ["AAPL"]⟩, ⟨"Metric", .objectCol, ["Total Revenue"]⟩,
       ⟨"Date", .objectCol, ["2023-01-01"]⟩, ⟨"Value", .objectCol, ["42"]⟩] =
      .error "Binder Error: table columns do not match value count" :=
  ⟨rfl, rfl, rfl⟩

/-- Claim C6 witness: on the company_info path the added column marketCap is
both an incoming frame column and a destination table column; on the
datasets path a four-column melted frame is rejected against the fixed
three-column table, and a count-matched frame with an uncastable value in the
TIMESTAMP position raises a Conversion Error. -/
theorem C6_projection_and_insertion_witness :
    ("marketCap" ∈
      ([⟨"Ticker", Dtype.objectCol, ["AAPL"]⟩, ⟨"marketCap", Dtype.int64, ["3"]⟩] : Frame).map
        Col.name ∧
     "marketCap" ∈ ((ingest_company_info alterAlwaysOk none
       [⟨"Ticker", .objectCol, ["AAPL"]⟩, ⟨"marketCap", .int64, ["3"]⟩]).table.cols.map
        Prod.fst)) ∧
    insert_select_star (fun _ ty => ty == "VARCHAR") datasets_table
      [⟨"Ticker", .objectCol, ["AAPL"]⟩, ⟨"Metric", .objectCol, ["m"]⟩,
       ⟨"Date", .objectCol, ["d"]⟩, ⟨"Value", .objectCol, ["42"]⟩] =
      .error "Binder Error: table columns do not match value count" ∧
    insert_select_star (fun _ ty => ty == "VARCHAR") datasets_table
      [⟨"Value", .objectCol, ["42"]⟩, ⟨"Ticker", .objectCol, ["AAPL"]⟩,
       ⟨"Date", .objectCol, ["2023-01-01"]⟩] =
      .error "Conversion Error: could not cast value to the column type" := by
  have h := C6_projection_and_insertion alterAlwaysOk (fun _ ty => ty == "VARCHAR") none
    [⟨"Ticker", .objectCol, ["AAPL"]⟩, ⟨"marketCap", .int64, ["3"]⟩]
    datasets_table
    [⟨"Ticker", .objectCol, ["AAPL"]⟩, ⟨"Metric", .objectCol, ["m"]⟩,
     ⟨"Date", .objectCol, ["d"]⟩, ⟨"Value", .objectCol, ["42"]⟩]
  have h2 := C6_projection_and_insertion alterAlwaysOk (fun _ ty => ty == "VARCHAR") none
    [⟨"Ticker", .objectCol, ["AAPL"]⟩, ⟨"marketCap", .int64, ["3"]⟩]
    datasets_table
    [⟨"Value", .objectCol, ["42"]⟩, ⟨"Ticker", .objectCol, ["AAPL"]⟩,
     ⟨"Date", .objectCol, ["2023-01-01"]⟩]
  exact ⟨h.1 "marketCap" (by decide), h.2.2.2.1 (by decide),
    h2.2.2.2.2.1 (by decide) (by decide)⟩

/- ===================== Claim C7 ===================== -/

theorem add_new_columns_allOk (t : DBTable) (cols : List (String × String)) :
    (add_new_columns alterAlwaysOk t cols).added = cols ∧
    (add_new_columns alterAlwaysOk t cols).table.cols = t.cols ++ cols ∧
    (add_new_columns alterAlwaysOk t cols).table.pk = t.pk ∧
    (add_new_columns alterAlwaysOk t cols).table.rows = t.rows := by
  induction cols generalizing t with
  | nil => simp [add_new_columns]
  | cons nc rest ih =>
    obtain ⟨name, ty⟩ := nc
    have h := ih { t with cols := t.cols ++ [(name, ty)] }
    simp only [add_new_columns, alterAlwaysOk, if_true]
    refine ⟨by simp [h.1], ?_, by simp [h.2.2.1], by simp [h.2.2.2]⟩
    rw [h.2.1]
    simp

theorem insertByName_duplicate (t : DBTable) (pk : String) (newRows : List Row) (r0 : Row)
    (hpk : t.pk = some pk) (h0 : r0 ∈ newRows) (hr0 : r0 ∈ t.rows) :
    insertByName t newRows = .error "Constraint Error: duplicate primary key" := by
  unfold insertByName
  simp only [hpk]
  rw [if_pos]
  apply List.any_eq_true.mpr
  refine ⟨r0, h0, ?_⟩
  cases hpv : rowPkValue pk r0 with
  | none => simp
  | some v =>
    have hmem : v ∈ t.rows.filterMap (rowPkValue pk) :=
      List.mem_filterMap.mpr ⟨r0, hr0, hpv⟩
    simpa [List.elem_iff] using hmem

/-- Claim C7, amended. Ingesting the same frame twice against an initially
absent company_info table adds each column exactly once: the first run issues
one additive change per missing column (each column name at most once) and
the second run computes an empty list of columns to add. But because the
table is created with PRIMARY KEY (Ticker), re-inserting the same rows
violates the key: the second INSERT fails and the table keeps the first run's
row count, so the append-twice (2x rows) behavior of the claim does not hold
on this path. -/
theorem C7_double_ingest_blocked_by_pk (f : Frame)
    (hnodup : (f.map Col.name).Nodup)
    (hrows : 1 ≤ frame_nrows f)
    (hins1 : (ingest_company_info alterAlwaysOk none f).insertError = none) :
    (ingest_company_info alterAlwaysOk none f).columnsAdded = new_columns_to_add none f ∧
    ((ingest_company_info alterAlwaysOk none f).columnsAdded.map Prod.fst).Nodup ∧
    (ingest_company_info alterAlwaysOk
      (some (ingest_company_info alterAlwaysOk none f).table) f).columnsAdded = [] ∧
    ((ingest_company_info alterAlwaysOk
      (some (ingest_company_info alterAlwaysOk none f).table) f).insertError).isSome = true ∧
    (ingest_company_info alterAlwaysOk
      (some (ingest_company_info alterAlwaysOk none f).table) f).table.rows.length =
      (ingest_company_info alterAlwaysOk none f).table.rows.length := by
  obtain ⟨hca1, hic1, hrti1, hcols1, hpk1, hrows1, _⟩ :=
    ingest_company_info_unfold alterAlwaysOk none f
  obtain ⟨hadd1, hcols1t, hpk1t, hrows1t⟩ :=
    add_new_columns_allOk company_info_empty_table (new_columns_to_add none f)
  have hca1' : (ingest_company_info alterAlwaysOk none f).columnsAdded =
      new_columns_to_add none f := by
    rw [hca1]
    exact hadd1
  have hnames1 : (ingest_company_info alterAlwaysOk none f).table.cols.map Prod.fst =
      "Ticker" :: (new_columns_to_add none f).map Prod.fst := by
    rw [hcols1]
    show (add_new_columns alterAlwaysOk company_info_empty_table
      (new_columns_to_add none f)).table.cols.map Prod.fst = _
    rw [hcols1t]
    rfl
  have hzero : new_columns_to_add
      (some (ingest_company_info alterAlwaysOk none f).table) f = [] := by
    unfold new_columns_to_add
    rw [List.map_eq_nil_iff, List.filter_eq_nil_iff]
    intro c hc
    have hmem : c.name ∈ existing_column_names
        (some (ingest_company_info alterAlwaysOk none f).table) := by
      show c.name ∈ (ingest_company_info alterAlwaysOk none f).table.cols.map Prod.fst
      rw [hnames1]
      by_cases hTick : (c.name == "Ticker") = true
      · have : c.name = "Ticker" := by simpa using hTick
        rw [this]
        exact List.mem_cons_self _ _
      · apply List.mem_cons_of_mem
        unfold new_columns_to_add
        rw [List.map_map]
        apply List.mem_map_of_mem
        apply List.mem_filter.mpr
        refine ⟨hc, ?_⟩
        have hnotmem : c.name ∉ existing_column_names none := by
          show c.name ∉ (["Ticker"] : List String)
          simp only [List.mem_singleton]
          intro h
          apply hTick
          simp [h]
        have hcont : (existing_column_names none).contains c.name = false := by
          simp [List.elem_iff, hnotmem]
        show (!(existing_column_names none).contains c.name) = true
        rw [hcont]
        rfl
    simpa using hmem
  have hev2tab : (evolved alterAlwaysOk
      (some (ingest_company_info alterAlwaysOk none f).table) f).table =
      (ingest_company_info alterAlwaysOk none f).table := by
    unfold evolved
    rw [hzero]
    rfl
  have hev2added : (evolved alterAlwaysOk
      (some (ingest_company_info alterAlwaysOk none f).table) f).added = [] := by
    unfold evolved
    rw [hzero]
    rfl
  obtain ⟨hca2, hic2, hrti2, hcols2, hpk2, hrows2if, herr2⟩ :=
    ingest_company_info_unfold alterAlwaysOk
      (some (ingest_company_info alterAlwaysOk none f).table) f
  have hpkt : (ingest_company_info alterAlwaysOk none f).table.pk = some "Ticker" := by
    rw [hpk1]
    show (add_new_columns alterAlwaysOk company_info_empty_table
      (new_columns_to_add none f)).table.pk = some "Ticker"
    rw [hpk1t]
    rfl
  have hrowst : (ingest_company_info alterAlwaysOk none f).table.rows =
      info_rows_to_insert alterAlwaysOk none f := by
    rw [hrows1 hins1]
    have : (evolved alterAlwaysOk none f).table.rows = [] := by
      show (add_new_columns alterAlwaysOk company_info_empty_table
        (new_columns_to_add none f)).table.rows = []
      rw [hrows1t]
      rfl
    rw [this]
    rfl
  have hproj12 : info_df_filtered alterAlwaysOk
      (some (ingest_company_info alterAlwaysOk none f).table) f =
      info_df_filtered alterAlwaysOk none f := by
    unfold info_df_filtered final_existing_column_names
    rw [hev2tab, hcols1]
  have hrows12 : info_rows_to_insert alterAlwaysOk
      (some (ingest_company_info alterAlwaysOk none f).table) f =
      info_rows_to_insert alterAlwaysOk none f := by
    unfold info_rows_to_insert
    rw [hproj12]
  obtain ⟨r0, rs, hr0⟩ : ∃ r0 rs, info_rows_to_insert alterAlwaysOk none f = r0 :: rs := by
    cases hx : info_rows_to_insert alterAlwaysOk none f with
    | nil =>
      exfalso
      have := congrArg List.length hx
      unfold info_rows_to_insert at this
      simp at this
      omega
    | cons a b => exact ⟨a, b, rfl⟩
  have hconflict : insertByName (evolved alterAlwaysOk
      (some (ingest_company_info alterAlwaysOk none f).table) f).table
      (info_rows_to_insert alterAlwaysOk
        (some (ingest_company_info alterAlwaysOk none f).table) f) =
      .error "Constraint Error: duplicate primary key" := by
    rw [hev2tab, hrows12]
    apply insertByName_duplicate _ "Ticker" _ r0 hpkt
    · rw [hr0]
      exact List.mem_cons_self _ _
    · rw [hrowst, hr0]
      exact List.mem_cons_self _ _
  obtain ⟨herrSome, htab2⟩ := herr2 _ hconflict
  refine ⟨hca1', ?_, ?_, ?_, ?_⟩
  · rw [hca1']
    unfold new_columns_to_add
    rw [List.map_map]
    have hsub : List.Sublist ((f.filter (fun c =>
        !((existing_column_names none).contains c.name))).map Col.name) (f.map Col.name) :=
      List.Sublist.map Col.name (List.filter_sublist f)
    exact List.Nodup.sublist hsub hnodup
  · rw [hca2, hev2added]
  · rw [herrSome]
    rfl
  · rw [htab2, hev2tab]

/-- Claim C7 counterexample: ingesting the same two-column frame (Ticker
AAPL, marketCap) twice against an initially absent table leaves the table
with 1 row, not 2: the second INSERT violates PRIMARY KEY (Ticker) and is
rejected, so append semantics do not hold even though the second ingestion
triggers zero additive schema changes. -/
theorem C7_no_double_append_cex :
    (ingest_company_info alterAlwaysOk none
      [⟨"Ticker", .objectCol, ["AAPL"]⟩, ⟨"marketCap", .int64, ["3000000000000"]⟩]).table.rows.length = 1 ∧
    (ingest_company_info alterAlwaysOk
      (some (ingest_company_info alterAlwaysOk none
        [⟨"Ticker", .objectCol, ["AAPL"]⟩, ⟨"marketCap", .int64, ["3000000000000"]⟩]).table)
      [⟨"Ticker", .objectCol, ["AAPL"]⟩, ⟨"marketCap", .int64, ["3000000000000"]⟩]).columnsAdded = [] ∧
    (ingest_company_info alterAlwaysOk
      (some (ingest_company_info alterAlwaysOk none
        [⟨"Ticker", .objectCol, ["AAPL"]⟩, ⟨"marketCap", .int64, ["3000000000000"]⟩]).table)
      [⟨"Ticker", .objectCol, ["AAPL"]⟩, ⟨"marketCap", .int64, ["3000000000000"]⟩]).insertError.isSome = true ∧
    (ingest_company_info alterAlwaysOk
      (some (ingest_company_info alterAlwaysOk none
        [⟨"Ticker", .objectCol, ["AAPL"]⟩, ⟨"marketCap", .int64, ["3000000000000"]⟩]).table)
      [⟨"Ticker", .objectCol, ["AAPL"]⟩, ⟨"marketCap", .int64, ["3000000000000"]⟩]).table.rows.length = 1 := by
  refine ⟨?_, ?_, ?_, ?_⟩ <;> decide

/-- Claim C7 witness: the amended statement applied to the concrete
two-column frame (Ticker AAPL, marketCap). -/
theorem C7_double_ingest_blocked_by_pk_witness :
    (ingest_company_info alterAlwaysOk none
      [⟨"Ticker", .objectCol, ["AAPL"]⟩, ⟨"marketCap", .int64, ["3"]⟩]).columnsAdded =
      new_columns_to_add none
        [⟨"Ticker", .objectCol, ["AAPL"]⟩, ⟨"marketCap", .int64, ["3"]⟩] ∧
    ((ingest_company_info alterAlwaysOk none
      [⟨"Ticker", .objectCol, ["AAPL"]⟩, ⟨"marketCap", .int64, ["3"]⟩]).columnsAdded.map
        Prod.fst).Nodup ∧
    (ingest_company_info alterAlwaysOk
      (some (ingest_company_info alterAlwaysOk none
        [⟨"Ticker", .objectCol, ["AAPL"]⟩, ⟨"marketCap", .int64, ["3"]⟩]).table)
      [⟨"Ticker", .objectCol, ["AAPL"]⟩, ⟨"marketCap", .int64, ["3"]⟩]).columnsAdded = [] ∧
    ((ingest_company_info alterAlwaysOk
      (some (ingest_company_info alterAlwaysOk none
        [⟨"Ticker", .objectCol, ["AAPL"]⟩, ⟨"marketCap", .int64, ["3"]⟩]).table)
      [⟨"Ticker", .objectCol, ["AAPL"]⟩, ⟨"marketCap", .int64, ["3"]⟩]).insertError).isSome =
      true ∧
    (ingest_company_info alterAlwaysOk
      (some (ingest_company_info alterAlwaysOk none
        [⟨"Ticker", .objectCol, ["AAPL"]⟩, ⟨"marketCap", .int64, ["3"]⟩]).table)
      [⟨"Ticker", .objectCol, ["AAPL"]⟩, ⟨"marketCap", .int64, ["3"]⟩]).table.rows.length =
      (ingest_company_info alterAlwaysOk none
        [⟨"Ticker", .objectCol, ["AAPL"]⟩, ⟨"marketCap", .int64, ["3"]⟩]).table.rows.length :=
  C7_double_ingest_blocked_by_pk
    [⟨"Ticker", .objectCol, ["AAPL"]⟩, ⟨"marketCap", .int64, ["3"]⟩]
    (by decide) (by decide) (by decide)
